import Mathlib

/-!
Shallow embedding of the `input-lib` crate (file `src/lib.rs`).

The crate's single behavioural function is `read_input_from`, which
optionally prints a prompt to stdout (with `print!` for
`PrintStyle::Continue`, `println!` for `PrintStyle::NewLine`), flushes
stdout, reads one line from a `BufRead` source, strips trailing `'\r'`
and `'\n'` characters, and parses the remainder with `T::from_str`,
mapping the failure cases to the `InputError` enumeration.

Modelling choices:
* a `BufRead` source is a list of characters plus an optional pending
  I/O-error message (`Reader`); `read_line` consumes up to and
  including the first `'\n'` and reports the UTF-8 byte count read,
  mirroring `BufRead::read_line`'s `Ok(usize)`;
* a Rust `std::io::Error` is represented by its display message
  (a `String`);
* the `FromStr` bound on `T` is represented by an explicit parse
  function `String → Except E T`;
* stdout is modelled by the trace of output events the call performs
  (`Event.write`, `Event.flush`) together with the read attempt
  (`Event.readLine`), in the order the source performs them;
* `World` carries the health of stdout: whether writing succeeds
  (Rust's `print!`/`println!` panic when the write fails, which the
  model records as `Outcome.panic`), and whether `flush` fails (the
  source maps a flush failure through `map_err(InputError::Io)`).
-/

namespace InputLib

/-- Model of `PrintStyle` (src/lib.rs lines 124–131): `Continue` prints the
prompt with no trailing newline, `NewLine` appends one. -/
inductive PrintStyle where
  | Continue : PrintStyle
  | NewLine : PrintStyle
deriving DecidableEq

/-- Model of `InputError<E>` (src/lib.rs lines 113–122); an `io::Error` is
represented by its display message. -/
inductive InputError (E : Type) where
  | Io : String → InputError E
  | Parse : E → InputError E
  | Eof : InputError E

/-- Output/read events a call performs, in order: a write of text to
stdout, a flush of stdout, and the blocking `read_line` attempt. -/
inductive Event where
  | write : String → Event
  | flush : Event
  | readLine : Event
deriving DecidableEq

/-- A `BufRead` source: remaining stream content, plus an optional
I/O-error message that makes `read_line` fail. -/
structure Reader where
  data : List Char
  readErr : Option String
deriving DecidableEq

/-- Health of the process stdout: `writeOk` is whether writing the prompt
succeeds (`print!`/`println!` panic when it does not), `flushErr` is the
error message `flush` fails with, if any. -/
structure World where
  writeOk : Bool
  flushErr : Option String
deriving DecidableEq

/-- Result of a call: either a normal return of `Result<T, InputError<E>>`,
or a panic (which Rust's `print!` and `println!` raise when writing to
stdout fails — a panic is not a return value). -/
inductive Outcome (T E : Type) where
  | panic : Outcome T E
  | ret : Except (InputError E) T → Outcome T E

/-- UTF-8 byte count of a character list, matching the byte count a Rust
`String` holds for the same text. -/
def utf8Len : List Char → Nat
  | [] => 0
  | c :: cs => c.utf8Size + utf8Len cs

/-- Split a stream at its first line: the first component is everything up
to and including the first `'\n'` (or the whole stream if none), the
second is the rest. This is the data `BufRead::read_line` appends. -/
def splitLine : List Char → List Char × List Char
  | [] => ([], [])
  | c :: cs =>
    if c = '\n' then ([c], cs)
    else
      let r := splitLine cs
      (c :: r.1, r.2)

/-- Model of `BufRead::read_line` on a `Reader`: fail if the source is in
an error state, otherwise return the first line (terminator included),
its byte count, and the remaining source. -/
def read_line (r : Reader) : Except String (List Char × Nat × Reader) :=
  match r.readErr with
  | some e => Except.error e
  | none =>
    let p := splitLine r.data
    Except.ok (p.1, utf8Len p.1, Reader.mk p.2 none)

/-- Model of `str::trim_end_matches(['\r', '\n'].as_ref())`
(src/lib.rs line 109): remove the maximal trailing run of `'\r'`/`'\n'`
characters, leaving everything else unchanged. -/
def trim_end_crlf (l : List Char) : List Char :=
  (l.reverse.dropWhile (fun c => c == '\r' || c == '\n')).reverse

/-- Model of src/lib.rs lines 101–110: read one line, return `Eof` when
zero bytes were read, otherwise strip the trailing terminator characters
and parse, mapping a parse failure through `InputError::Parse`. The
event list records the read attempt. -/
def readPhase {T E : Type} (parse : String → Except E T) (reader : Reader) :
    Outcome T E × List Event × Reader :=
  match read_line reader with
  | Except.error e =>
    (Outcome.ret (Except.error (InputError.Io e)), [Event.readLine], reader)
  | Except.ok res =>
    if res.2.1 = 0 then
      (Outcome.ret (Except.error InputError.Eof), [Event.readLine], res.2.2)
    else
      (Outcome.ret
        (Except.mapError InputError.Parse
          (parse (String.mk (trim_end_crlf res.1)))),
       [Event.readLine], res.2.2)

/-- Text actually written for a prompt: `print!` writes it as is
(`Continue`), `println!` appends a newline (`NewLine`)
(src/lib.rs lines 87–96). -/
def promptText (p : String) : PrintStyle → String
  | PrintStyle.Continue => p
  | PrintStyle.NewLine => p ++ "\n"

/-- Output events of the prompt phase: nothing without a prompt, a write
followed by a flush with one. -/
def promptEvents : Option String → PrintStyle → List Event
  | none, _ => []
  | some p, st => [Event.write (promptText p st), Event.flush]

/-- Model of `read_input_from` (src/lib.rs lines 76–111). With a prompt:
write it (per the style), where a failed write panics (`print!`
semantics) and a failed flush returns `InputError::Io`
(`flush().map_err(InputError::Io)?`); then, as without a prompt, run the
read/parse phase. Returns the outcome, the event trace in order, and
the remaining source. -/
def read_input_from {T E : Type} (parse : String → Except E T)
    (reader : Reader) (prompt : Option String) (print_style : PrintStyle)
    (w : World) : Outcome T E × List Event × Reader :=
  match prompt with
  | some prompt_args =>
    if w.writeOk then
      match w.flushErr with
      | some e =>
        (Outcome.ret (Except.error (InputError.Io e)),
         [Event.write (promptText prompt_args print_style), Event.flush],
         reader)
      | none =>
        let r := readPhase parse reader
        (r.1,
         Event.write (promptText prompt_args print_style) ::
           Event.flush :: r.2.1,
         r.2.2)
    else
      (Outcome.panic, [], reader)
  | none => readPhase parse reader

/-- Model of the `Display` impl for `InputError` (src/lib.rs lines
133–141); `dispE` plays the role of `E`'s `Display` impl. -/
def InputError.display {E : Type} (dispE : E → String) : InputError E → String
  | InputError.Io e => "I/O error: " ++ e
  | InputError.Parse e => "Parse error: " ++ dispE e
  | InputError.Eof => "EOF encountered"

/-- Expansion of `input!()` (src/lib.rs lines 24–30): no prompt,
`PrintStyle::Continue`. -/
def input_noargs {T E : Type} (parse : String → Except E T) (stdin : Reader)
    (w : World) : Outcome T E × List Event × Reader :=
  read_input_from parse stdin none PrintStyle.Continue w

/-- Expansion of `input!(args...)` (src/lib.rs lines 31–37): the formatted
prompt, `PrintStyle::Continue`. -/
def input_args {T E : Type} (parse : String → Except E T) (stdin : Reader)
    (formatted : String) (w : World) : Outcome T E × List Event × Reader :=
  read_input_from parse stdin (some formatted) PrintStyle.Continue w

/-- Expansion of `inputln!()` (src/lib.rs lines 54–60): no prompt,
`PrintStyle::NewLine`. -/
def inputln_noargs {T E : Type} (parse : String → Except E T) (stdin : Reader)
    (w : World) : Outcome T E × List Event × Reader :=
  read_input_from parse stdin none PrintStyle.NewLine w

/-- Expansion of `inputln!(args...)` (src/lib.rs lines 61–67). The source
passes `None` as the prompt — the formatted arguments are discarded —
so the model ignores `formatted` exactly as the macro does. -/
def inputln_args {T E : Type} (parse : String → Except E T) (stdin : Reader)
    (_formatted : String) (w : World) : Outcome T E × List Event × Reader :=
  read_input_from parse stdin none PrintStyle.NewLine w

/-- Whether an outcome is a returned `Err(InputError::Io(_))`. -/
def returnsIo {T E : Type} : Outcome T E → Bool
  | Outcome.ret (Except.error (InputError.Io _)) => true
  | _ => false

/-- Whether an outcome is a normal return at all, as opposed to a
panic. -/
def isReturn {T E : Type} : Outcome T E → Bool
  | Outcome.ret _ => true
  | Outcome.panic => false

/-- Concrete stand-in for an unsigned-integer `FromStr` impl, used to
instantiate the generic theorems: accepts exactly nonempty all-digit
strings, mirroring Rust's rejection of surrounding whitespace. -/
def digitsOk (l : List Char) : Bool :=
  !l.isEmpty && l.all Char.isDigit

/-- Numeric value of a digit string. -/
def digitsVal (l : List Char) : Nat :=
  l.foldl (fun n c => 10 * n + (c.toNat - 48)) 0

/-- Concrete integer parse function (see `digitsOk`); its error message is
the one Rust's integer `FromStr` impls produce. -/
def parseNat (s : String) : Except String Nat :=
  if digitsOk s.data then Except.ok (digitsVal s.data)
  else Except.error "invalid digit found in string"

/-- Concrete stand-in for `String`'s infallible `FromStr` impl. -/
def parseString (s : String) : Except String String :=
  Except.ok s

/-- The byte count of a line is zero exactly when the line is empty. -/
theorem utf8Len_eq_zero_iff (l : List Char) : utf8Len l = 0 ↔ l = [] := by
  cases l with
  | nil => simp [utf8Len]
  | cons c cs =>
    have h := Char.utf8Size_pos c
    simp only [utf8Len, List.cons_ne_nil, iff_false]
    omega

/-- `dropWhile` is the identity on a list none of whose elements satisfy
the test. -/
theorem dropWhile_all_false (p : Char → Bool) (l : List Char)
    (h : ∀ c ∈ l, p c = false) : l.dropWhile p = l := by
  cases l with
  | nil => rfl
  | cons c cs =>
    have hc : p c = false := h c (by simp)
    simp [List.dropWhile_cons, hc]

/-- The head of a `dropWhile` result fails the test. -/
theorem dropWhile_cons_false (p : Char → Bool) (l t : List Char) (c : Char)
    (h : l.dropWhile p = c :: t) : p c = false := by
  induction l with
  | nil => cases h
  | cons a as ih =>
    rw [List.dropWhile_cons] at h
    by_cases ha : p a
    · rw [if_pos ha] at h
      exact ih h
    · rw [if_neg ha] at h
      cases h
      simpa using ha

/-- Reading a line from `s ++ '\n' :: rest` where `s` is newline-free
yields the line `s ++ ['\n']` and leaves `rest`. -/
theorem splitLine_append (s rest : List Char) (h : '\n' ∉ s) :
    splitLine (s ++ '\n' :: rest) = (s ++ ['\n'], rest) := by
  induction s with
  | nil => simp [splitLine]
  | cons c cs ih =>
    have hc : ¬(c = '\n') := by
      intro e
      exact h (by simp [e])
    have hcs : '\n' ∉ cs := by
      intro m
      exact h (by simp [m])
    simp [splitLine, hc, ih hcs]

/-- Stripping the terminator from `s ++ ['\n']` recovers `s` when `s`
contains no terminator characters. -/
theorem trim_end_crlf_append_newline (s : List Char)
    (h : ∀ c ∈ s, c ≠ '\r' ∧ c ≠ '\n') :
    trim_end_crlf (s ++ ['\n']) = s := by
  have hall : ∀ c ∈ s.reverse, ((c == '\r') || (c == '\n')) = false := by
    intro c hc
    have hm := h c (List.mem_reverse.mp hc)
    simp [hm.1, hm.2]
  unfold trim_end_crlf
  rw [List.reverse_append]
  simp only [List.reverse_cons, List.reverse_nil, List.nil_append,
    List.cons_append, List.dropWhile_cons]
  simp only [show (('\n' == '\r') || ('\n' == '\n')) = true from rfl,
    if_true]
  rw [dropWhile_all_false _ _ hall, List.reverse_reverse]

/-- Every line splits as its stripped form followed by a run of
terminator characters. -/
theorem trim_end_crlf_decomposition (l : List Char) :
    ∃ d, l = trim_end_crlf l ++ d ∧ ∀ c ∈ d, c = '\r' ∨ c = '\n' := by
  refine ⟨(l.reverse.takeWhile (fun c => c == '\r' || c == '\n')).reverse,
    ?_, ?_⟩
  · have h0 := List.takeWhile_append_dropWhile
      (p := fun c => c == '\r' || c == '\n') (l := l.reverse)
    calc l = l.reverse.reverse := (List.reverse_reverse l).symm
      _ = ((l.reverse.takeWhile (fun c => c == '\r' || c == '\n')) ++
            (l.reverse.dropWhile (fun c => c == '\r' || c == '\n'))).reverse := by
            rw [h0]
      _ = trim_end_crlf l ++
            (l.reverse.takeWhile (fun c => c == '\r' || c == '\n')).reverse := by
            rw [List.reverse_append]
            rfl
  · intro c hc
    have hc2 := List.mem_reverse.mp hc
    have hp := List.mem_takeWhile_imp hc2
    simpa using hp

/-- The stripped line never ends in a terminator character. -/
theorem trim_end_crlf_no_trailing (l front : List Char) (c : Char)
    (h : trim_end_crlf l = front ++ [c]) : c ≠ '\r' ∧ c ≠ '\n' := by
  have h1 : l.reverse.dropWhile (fun c => c == '\r' || c == '\n') =
      c :: front.reverse := by
    have h2 := congrArg List.reverse h
    rw [trim_end_crlf, List.reverse_reverse, List.reverse_append] at h2
    simpa using h2
  have h3 := dropWhile_cons_false _ _ _ _ h1
  constructor <;> intro e <;> subst e <;> simp at h3

/-- A read failure makes the read/parse phase report `Io`. -/
theorem readPhase_readErr {T E : Type} (parse : String → Except E T)
    (data : List Char) (e : String) :
    readPhase parse ⟨data, some e⟩ =
      (Outcome.ret (Except.error (InputError.Io e)), [Event.readLine],
       ⟨data, some e⟩) := rfl

/-- Zero bytes read makes the read/parse phase report `Eof`. -/
theorem readPhase_empty {T E : Type} (parse : String → Except E T)
    (data : List Char) (h : (splitLine data).1 = []) :
    readPhase parse ⟨data, none⟩ =
      (Outcome.ret (Except.error InputError.Eof), [Event.readLine],
       ⟨(splitLine data).2, none⟩) := by
  simp only [readPhase, read_line]
  rw [h]
  simp [utf8Len]

/-- A nonempty line is stripped and handed to the parse function. -/
theorem readPhase_nonempty {T E : Type} (parse : String → Except E T)
    (data : List Char) (h : (splitLine data).1 ≠ []) :
    readPhase parse ⟨data, none⟩ =
      (Outcome.ret (Except.mapError InputError.Parse
        (parse (String.mk (trim_end_crlf (splitLine data).1)))),
       [Event.readLine], ⟨(splitLine data).2, none⟩) := by
  have hz : ¬(utf8Len (splitLine data).1 = 0) := by
    intro e
    exact h ((utf8Len_eq_zero_iff _).mp e)
  simp only [readPhase, read_line]
  simp [hz]

/-- The read/parse phase performs exactly one read attempt and no output. -/
theorem readPhase_events {T E : Type} (parse : String → Except E T)
    (r : Reader) : (readPhase parse r).2.1 = [Event.readLine] := by
  obtain ⟨data, rerr⟩ := r
  cases rerr with
  | some e => rfl
  | none =>
    by_cases h : (splitLine data).1 = []
    · rw [readPhase_empty parse data h]
    · rw [readPhase_nonempty parse data h]

/-- Without a prompt the call is exactly the read/parse phase. -/
theorem read_input_from_none {T E : Type} (parse : String → Except E T)
    (r : Reader) (style : PrintStyle) (w : World) :
    read_input_from parse r none style w = readPhase parse r := rfl

/-- With a prompt on a healthy stdout: write, flush, then the read/parse
phase. -/
theorem read_input_from_some_ok {T E : Type} (parse : String → Except E T)
    (r : Reader) (p : String) (style : PrintStyle) :
    read_input_from parse r (some p) style ⟨true, none⟩ =
      ((readPhase parse r).1,
       Event.write (promptText p style) :: Event.flush ::
         (readPhase parse r).2.1,
       (readPhase parse r).2.2) := rfl

/-- A flush failure stops the call with `Io` before any read. -/
theorem read_input_from_some_flushErr {T E : Type}
    (parse : String → Except E T) (r : Reader) (p : String)
    (style : PrintStyle) (e : String) :
    read_input_from parse r (some p) style ⟨true, some e⟩ =
      (Outcome.ret (Except.error (InputError.Io e)),
       [Event.write (promptText p style), Event.flush], r) := rfl

/-- A write failure panics (`print!`/`println!` semantics). -/
theorem read_input_from_writeFail {T E : Type} (parse : String → Except E T)
    (r : Reader) (p : String) (style : PrintStyle) (fe : Option String) :
    read_input_from parse r (some p) style ⟨false, fe⟩ =
      (Outcome.panic, [], r) := rfl

/-- On a healthy stdout the call is the prompt events followed by the
read/parse phase. -/
theorem read_input_from_goodWorld {T E : Type} (parse : String → Except E T)
    (r : Reader) (prompt : Option String) (style : PrintStyle) :
    read_input_from parse r prompt style ⟨true, none⟩ =
      ((readPhase parse r).1,
       promptEvents prompt style ++ (readPhase parse r).2.1,
       (readPhase parse r).2.2) := by
  cases prompt with
  | none => rfl
  | some p => rfl

/-- A parse outcome, whatever the parse result, is never the `Eof`
error. -/
theorem ret_mapError_ne_eof {T E : Type} (x : Except E T) :
    Outcome.ret (Except.mapError InputError.Parse x) ≠
      Outcome.ret (Except.error InputError.Eof) := by
  cases x <;> intro h <;> injection h with h1
  · injection h1 with h2
    exact InputError.noConfusion h2
  · exact Except.noConfusion h1

/-- Complete case analysis of the read/parse phase outcome. -/
theorem readPhase_outcome_cases {T E : Type} (parse : String → Except E T)
    (data : List Char) (rerr : Option String) :
    (∀ e, rerr = some e → (readPhase parse ⟨data, rerr⟩).1 =
      Outcome.ret (Except.error (InputError.Io e))) ∧
    (rerr = none → (splitLine data).1 = [] →
      (readPhase parse ⟨data, rerr⟩).1 =
        Outcome.ret (Except.error InputError.Eof)) ∧
    (rerr = none → (splitLine data).1 ≠ [] →
      (readPhase parse ⟨data, rerr⟩).1 =
        Outcome.ret (Except.mapError InputError.Parse
          (parse (String.mk (trim_end_crlf (splitLine data).1))))) ∧
    (∃ res, (readPhase parse ⟨data, rerr⟩).1 = Outcome.ret res) := by
  cases rerr with
  | some e =>
    refine ⟨?_, ?_, ?_, ?_⟩
    · intro e2 he
      injection he with he2
      rw [← he2, readPhase_readErr]
    · intro hn
      cases hn
    · intro hn
      cases hn
    · exact ⟨Except.error (InputError.Io e), by rw [readPhase_readErr]⟩
  | none =>
    refine ⟨?_, ?_, ?_, ?_⟩
    · intro e2 he
      cases he
    · intro _ h
      rw [readPhase_empty parse data h]
    · intro _ h
      rw [readPhase_nonempty parse data h]
    · by_cases h : (splitLine data).1 = []
      · exact ⟨Except.error InputError.Eof,
          by rw [readPhase_empty parse data h]⟩
      · exact ⟨Except.mapError InputError.Parse
          (parse (String.mk (trim_end_crlf (splitLine data).1))),
          by rw [readPhase_nonempty parse data h]⟩

/-- C1: for a line `s` free of terminator characters and accepted by the
parser of `T`, reading from a source holding `s` followed by a line
terminator returns exactly the value the parser produces from `s`, and
consumes exactly that line. -/
theorem c1_accepted_line_parses {T E : Type} (parse : String → Except E T)
    (s rest : List Char) (v : T) (prompt : Option String)
    (style : PrintStyle)
    (hs : ∀ c ∈ s, c ≠ '\n' ∧ c ≠ '\r')
    (hp : parse (String.mk s) = Except.ok v) :
    read_input_from parse ⟨s ++ '\n' :: rest, none⟩ prompt style
        ⟨true, none⟩ =
      (Outcome.ret (Except.ok v),
       promptEvents prompt style ++ [Event.readLine], ⟨rest, none⟩) := by
  have hnl : '\n' ∉ s := fun m => (hs _ m).1 rfl
  have htr : trim_end_crlf (s ++ ['\n']) = s :=
    trim_end_crlf_append_newline s (fun c hc => ⟨(hs c hc).2, (hs c hc).1⟩)
  have hsplit := splitLine_append s rest hnl
  have hne : (splitLine (s ++ '\n' :: rest)).1 ≠ [] := by
    rw [hsplit]
    simp
  rw [read_input_from_goodWorld, readPhase_nonempty parse _ hne, hsplit]
  simp [htr, hp, Except.mapError]

/-- C1 witness: the source `"Alice\n"` with the string parser returns
`Ok("Alice")`. -/
theorem c1_witness :
    read_input_from parseString ⟨"Alice".data ++ '\n' :: [], none⟩ none
        PrintStyle.Continue ⟨true, none⟩ =
      (Outcome.ret (Except.ok "Alice"),
       promptEvents none PrintStyle.Continue ++ [Event.readLine],
       ⟨[], none⟩) :=
  c1_accepted_line_parses parseString ("Alice".data) [] "Alice" none
    PrintStyle.Continue (by decide) rfl

/-- C2: an exhausted source (zero bytes read) yields `Eof` for every
parser and prompt; a line that still had a terminator (positive byte
count, empty after stripping) hands the empty string to the parser and
never yields `Eof`. -/
theorem c2_eof_only_on_zero_bytes {T E : Type} (parse : String → Except E T)
    (prompt : Option String) (style : PrintStyle) (data : List Char)
    (hb : (splitLine data).1 ≠ [])
    (hempty : trim_end_crlf (splitLine data).1 = []) :
    (read_input_from parse ⟨[], none⟩ prompt style ⟨true, none⟩).1 =
        Outcome.ret (Except.error InputError.Eof) ∧
      (read_input_from parse ⟨data, none⟩ prompt style ⟨true, none⟩).1 =
        Outcome.ret (Except.mapError InputError.Parse (parse "")) ∧
      (read_input_from parse ⟨data, none⟩ prompt style ⟨true, none⟩).1 ≠
        Outcome.ret (Except.error InputError.Eof) := by
  refine ⟨?_, ?_, ?_⟩
  · rw [read_input_from_goodWorld, readPhase_empty parse [] rfl]
  · rw [read_input_from_goodWorld, readPhase_nonempty parse data hb, hempty]
  · rw [read_input_from_goodWorld, readPhase_nonempty parse data hb]
    exact ret_mapError_ne_eof _

/-- C2 witness: the source `"\n"` with the string parser returns
`Ok("")`, not `Eof`. -/
theorem c2_witness :
    (read_input_from parseString ⟨"\n".data, none⟩ none PrintStyle.Continue
        ⟨true, none⟩).1 = Outcome.ret (Except.ok "") :=
  ((c2_eof_only_on_zero_bytes parseString none PrintStyle.Continue
      ("\n".data) (by decide) (by decide)).2.1).trans rfl

/-- C3, behaviour at the failing input: `inputln!` invoked with a prompt
argument passes `None` to the core operation, so the supplied prompt
text is discarded, nothing is written to stdout, and the call behaves
exactly like the no-argument form. -/
theorem c3_inputln_args_discards_prompt :
    inputln_args parseString ⟨"blue".data ++ ['\n'], none⟩
        "Enter a color: " ⟨true, none⟩ =
      (Outcome.ret (Except.ok "blue"), [Event.readLine], ⟨[], none⟩) ∧
    inputln_args parseString ⟨"blue".data ++ ['\n'], none⟩
        "Enter a color: " ⟨true, none⟩ =
      inputln_noargs parseString ⟨"blue".data ++ ['\n'], none⟩
        ⟨true, none⟩ := ⟨rfl, rfl⟩

/-- C4: the parser receives the line with exactly the maximal trailing
run of `'\r'`/`'\n'` characters removed: the stripped text is an exact
front of the line, everything removed is a terminator character, and the
stripped text ends in no terminator character. -/
theorem c4_strips_exactly_trailing_crlf {T E : Type}
    (parse : String → Except E T) (data : List Char)
    (h : (splitLine data).1 ≠ []) :
    (read_input_from parse ⟨data, none⟩ none PrintStyle.Continue
        ⟨true, none⟩).1 =
      Outcome.ret (Except.mapError InputError.Parse
        (parse (String.mk (trim_end_crlf (splitLine data).1)))) ∧
    (∃ d, (splitLine data).1 = trim_end_crlf (splitLine data).1 ++ d ∧
      ∀ c ∈ d, c = '\r' ∨ c = '\n') ∧
    (∀ front c, trim_end_crlf (splitLine data).1 = front ++ [c] →
      c ≠ '\r' ∧ c ≠ '\n') := by
  refine ⟨?_, trim_end_crlf_decomposition _,
    fun front c hc => trim_end_crlf_no_trailing _ front c hc⟩
  rw [read_input_from_none, readPhase_nonempty parse data h]

/-- C4 witness: the input line `"  42  \r\n"` parsed as an integer yields
a parse error — the surrounding spaces are not trimmed. -/
theorem c4_witness :
    (read_input_from parseNat ⟨"  42  \r\n".data, none⟩ none
        PrintStyle.Continue ⟨true, none⟩).1 =
      Outcome.ret (Except.error
        (InputError.Parse "invalid digit found in string")) :=
  ((c4_strips_exactly_trailing_crlf parseNat ("  42  \r\n".data)
      (by decide)).1).trans rfl

/-- C5 counterexample: with a prompt and a stdout whose write fails, the
call panics (the semantics of `print!`), so it does not terminate with
`Err(InputError::Io)` as the claim states. -/
theorem c5_counterexample :
    (read_input_from parseString ⟨"x".data ++ ['\n'], none⟩
        (some "Enter name: ") PrintStyle.Continue ⟨false, none⟩).1 =
      Outcome.panic ∧
    returnsIo ((read_input_from parseString ⟨"x".data ++ ['\n'], none⟩
        (some "Enter name: ") PrintStyle.Continue ⟨false, none⟩).1) =
      false := ⟨rfl, rfl⟩

/-- C5 amended: when a prompt is supplied and the write succeeds, the
prompt text — bare for `Continue`, with one trailing newline for
`NewLine` — is written and stdout flushed before the read; a flush
failure terminates the call with `Err(InputError::Io)` before any read;
a write failure panics instead of returning. -/
theorem c5_amended_prompt_write_flush {T E : Type}
    (parse : String → Except E T) (r : Reader) (p : String)
    (style : PrintStyle) (w : World) :
    (w.writeOk = true → w.flushErr = none →
      read_input_from parse r (some p) style w =
        ((readPhase parse r).1,
         Event.write (promptText p style) :: Event.flush ::
           [Event.readLine],
         (readPhase parse r).2.2)) ∧
    (∀ e, w.writeOk = true → w.flushErr = some e →
      read_input_from parse r (some p) style w =
        (Outcome.ret (Except.error (InputError.Io e)),
         [Event.write (promptText p style), Event.flush], r)) ∧
    (w.writeOk = false →
      read_input_from parse r (some p) style w = (Outcome.panic, [], r)) ∧
    promptText p PrintStyle.Continue = p ∧
    promptText p PrintStyle.NewLine = p ++ "\n" := by
  obtain ⟨wo, fe⟩ := w
  refine ⟨fun hw hf => ?_, fun e hw hf => ?_, fun hw => ?_, rfl, rfl⟩
  · cases hw
    cases hf
    rw [read_input_from_some_ok, readPhase_events]
  · cases hw
    cases hf
    exact read_input_from_some_flushErr parse r p style e
  · cases hw
    exact read_input_from_writeFail parse r p style fe

/-- C5 witness: a failing flush after a successful prompt write returns
`Err(InputError::Io)` with the flush error, before any read. -/
theorem c5_witness :
    read_input_from parseString ⟨"x".data ++ ['\n'], none⟩ (some "Name: ")
        PrintStyle.Continue ⟨true, some "no space left"⟩ =
      (Outcome.ret (Except.error (InputError.Io "no space left")),
       [Event.write (promptText "Name: " PrintStyle.Continue), Event.flush],
       ⟨"x".data ++ ['\n'], none⟩) :=
  (c5_amended_prompt_write_flush parseString ⟨"x".data ++ ['\n'], none⟩
      "Name: " PrintStyle.Continue ⟨true, some "no space left"⟩).2.1
    "no space left" rfl rfl

/-- C6: when the parser rejects the stripped line, the call returns
`Err(InputError::Parse(e))` carrying exactly the parser's error value. -/
theorem c6_parse_error_passed_through {T E : Type}
    (parse : String → Except E T) (data : List Char)
    (prompt : Option String) (style : PrintStyle) (e : E)
    (h0 : (splitLine data).1 ≠ [])
    (hp : parse (String.mk (trim_end_crlf (splitLine data).1)) =
      Except.error e) :
    (read_input_from parse ⟨data, none⟩ prompt style ⟨true, none⟩).1 =
      Outcome.ret (Except.error (InputError.Parse e)) := by
  rw [read_input_from_goodWorld, readPhase_nonempty parse data h0, hp]
  rfl

/-- C6 witness: the source `"abc\n"` with the integer parser returns the
parser's own error message wrapped in `Parse`. -/
theorem c6_witness :
    (read_input_from parseNat ⟨"abc".data ++ ['\n'], none⟩ none
        PrintStyle.Continue ⟨true, none⟩).1 =
      Outcome.ret (Except.error
        (InputError.Parse "invalid digit found in string")) :=
  c6_parse_error_passed_through parseNat ("abc".data ++ ['\n']) none
    PrintStyle.Continue "invalid digit found in string" (by decide) rfl

/-- C7 counterexample: a prompted call on a stdout whose write fails
panics (the semantics of `println!`) and so returns neither a parsed
value nor any of the three `InputError` cases — the claim's
unconditional totality fails at this input. -/
theorem c7_counterexample :
    (read_input_from parseString ⟨"7".data ++ ['\n'], none⟩ (some "Age: ")
        PrintStyle.NewLine ⟨false, none⟩).1 = Outcome.panic ∧
    isReturn ((read_input_from parseString ⟨"7".data ++ ['\n'], none⟩
        (some "Age: ") PrintStyle.NewLine ⟨false, none⟩).1) = false :=
  ⟨rfl, rfl⟩

/-- C7 amended: every call either panics — which happens exactly when a
prompt is supplied and the stdout write fails — or returns one of: a
parsed value, `Io`, `Parse`, or `Eof`; the cases are mutually
exclusive: a flush failure with a prompt is `Io`, a read I/O failure is
`Io` and never `Eof`, `Eof` arises exactly when zero bytes were
obtained without error, and a parse failure arises only from a nonempty
line. -/
theorem c7_amended_total_mutually_exclusive {T E : Type}
    (parse : String → Except E T) (data : List Char) (rerr : Option String)
    (prompt : Option String) (style : PrintStyle) (w : World) :
    ((prompt = none ∨ w.writeOk = true) →
      ∃ res, (read_input_from parse ⟨data, rerr⟩ prompt style w).1 =
        Outcome.ret res) ∧
    (∀ p, prompt = some p → w.writeOk = false →
      (read_input_from parse ⟨data, rerr⟩ prompt style w).1 =
        Outcome.panic) ∧
    (∀ p fe, prompt = some p → w.writeOk = true → w.flushErr = some fe →
      (read_input_from parse ⟨data, rerr⟩ prompt style w).1 =
        Outcome.ret (Except.error (InputError.Io fe))) ∧
    ((prompt = none ∨ (w.writeOk = true ∧ w.flushErr = none)) →
      (∀ e, rerr = some e →
        (read_input_from parse ⟨data, rerr⟩ prompt style w).1 =
          Outcome.ret (Except.error (InputError.Io e))) ∧
      (rerr = none → (splitLine data).1 = [] →
        (read_input_from parse ⟨data, rerr⟩ prompt style w).1 =
          Outcome.ret (Except.error InputError.Eof)) ∧
      (rerr = none → (splitLine data).1 ≠ [] →
        (read_input_from parse ⟨data, rerr⟩ prompt style w).1 =
          Outcome.ret (Except.mapError InputError.Parse
            (parse (String.mk (trim_end_crlf (splitLine data).1)))))) ∧
    (∀ e, rerr = some e →
      (read_input_from parse ⟨data, rerr⟩ prompt style w).1 ≠
        Outcome.ret (Except.error InputError.Eof)) := by
  obtain ⟨wo, fe⟩ := w
  have hrp := readPhase_outcome_cases parse data rerr
  cases prompt with
  | none =>
    rw [read_input_from_none]
    refine ⟨?_, ?_, ?_, ?_, ?_⟩
    · intro _
      exact hrp.2.2.2
    · intro p hp
      cases hp
    · intro p fe2 hp
      cases hp
    · intro _
      exact ⟨hrp.1, hrp.2.1, hrp.2.2.1⟩
    · intro e he h
      rw [hrp.1 e he] at h
      injection h with h1
      injection h1 with h2
      exact InputError.noConfusion h2
  | some p =>
    cases wo with
    | false =>
      have hfst : (read_input_from parse ⟨data, rerr⟩ (some p) style
          ⟨false, fe⟩).1 = Outcome.panic := rfl
      rw [hfst]
      refine ⟨?_, ?_, ?_, ?_, ?_⟩
      · intro hor
        rcases hor with h | h
        · cases h
        · cases h
      · intro p2 hp hw
        rfl
      · intro p2 fe2 hp hw
        cases hw
      · intro hor
        rcases hor with h | h
        · cases h
        · cases h.1
      · intro e he h
        exact Outcome.noConfusion h
    | true =>
      cases fe with
      | some fe2 =>
        have hfst : (read_input_from parse ⟨data, rerr⟩ (some p) style
            ⟨true, some fe2⟩).1 =
              Outcome.ret (Except.error (InputError.Io fe2)) := rfl
        rw [hfst]
        refine ⟨?_, ?_, ?_, ?_, ?_⟩
        · intro _
          exact ⟨Except.error (InputError.Io fe2), rfl⟩
        · intro p2 hp hw
          cases hw
        · intro p3 fe3 hp hw hf
          injection hf with hf2
          rw [hf2]
        · intro hor
          rcases hor with h | h
          · cases h
          · cases h.2
        · intro e he h
          injection h with h1
          injection h1 with h2
          exact InputError.noConfusion h2
      | none =>
        have hfst : (read_input_from parse ⟨data, rerr⟩ (some p) style
            ⟨true, none⟩).1 = (readPhase parse ⟨data, rerr⟩).1 := rfl
        rw [hfst]
        refine ⟨?_, ?_, ?_, ?_, ?_⟩
        · intro _
          exact hrp.2.2.2
        · intro p2 hp hw
          cases hw
        · intro p3 fe3 hp hw hf
          cases hf
        · intro _
          exact ⟨hrp.1, hrp.2.1, hrp.2.2.1⟩
        · intro e he h
          rw [hrp.1 e he] at h
          injection h with h1
          injection h1 with h2
          exact InputError.noConfusion h2

/-- C7 witness: a source in an I/O-error state reports `Io` with the
underlying message, not `Eof`. -/
theorem c7_witness :
    (read_input_from parseString ⟨[], some "broken pipe"⟩ none
        PrintStyle.Continue ⟨true, none⟩).1 =
      Outcome.ret (Except.error (InputError.Io "broken pipe")) :=
  ((c7_amended_total_mutually_exclusive parseString [] (some "broken pipe")
      none PrintStyle.Continue ⟨true, none⟩).2.2.2.1 (Or.inl rfl)).1
    "broken pipe" rfl

/-- C8: the human-readable formatting of each error case. -/
theorem c8_display_messages {E : Type} (dispE : E → String)
    (ioMsg : String) (e : E) :
    InputError.display dispE (InputError.Io ioMsg) =
        "I/O error: " ++ ioMsg ∧
      InputError.display dispE (InputError.Parse e) =
        "Parse error: " ++ dispE e ∧
      InputError.display dispE (InputError.Eof : InputError E) =
        "EOF encountered" := ⟨rfl, rfl, rfl⟩

/-- C9: `input!()` and `inputln!()` both call the core with no prompt and
differ only in the style tag, which is never consulted without a prompt;
they produce identical results and write nothing before the read. -/
theorem c9_noargs_forms_equivalent {T E : Type}
    (parse : String → Except E T) (r : Reader) (w : World)
    (s1 s2 : PrintStyle) :
    input_noargs parse r w = inputln_noargs parse r w ∧
      read_input_from parse r none s1 w = read_input_from parse r none s2 w ∧
      (input_noargs parse r w).2.1 = [Event.readLine] :=
  ⟨rfl, rfl, readPhase_events parse r⟩

/-- C10: with a prompt and an exhausted source, the prompt write and the
flush still happen, in order, before the call returns `Eof`. -/
theorem c10_prompt_written_before_eof {T E : Type}
    (parse : String → Except E T) (p : String) (style : PrintStyle) :
    read_input_from parse ⟨[], none⟩ (some p) style ⟨true, none⟩ =
      (Outcome.ret (Except.error InputError.Eof),
       [Event.write (promptText p style), Event.flush, Event.readLine],
       ⟨[], none⟩) := by
  rw [read_input_from_some_ok, readPhase_empty parse [] rfl]
  rfl

end InputLib
